import Mathlib

/-!
Verification development for the `html_parse_sync` HTML extraction pipeline
(`src/__init__.py`).  The Python source is shallowly embedded: every helper
function of the module is translated to an executable Lean function over
`List Char` (wrapped into `String` at the interface), and the regular
expressions of the source are encoded in a small pattern language together
with a backtracking matcher that mirrors Python `re` semantics (leftmost
match, ordered alternation, greedy/lazy quantifiers with backtracking into
the continuation).  All quantifiers in the source apply to single-character
classes and all alternations are between plain literals, so the pattern
language below covers every regex of the module exactly.
-/

namespace HtmlParseSync

/-- ASCII lower-casing, used for the case-insensitive matching of `re.I`
patterns (all case-carrying literals in the source are ASCII). -/
def lowerA (c : Char) : Char :=
  if 'A' ≤ c ∧ c ≤ 'Z' then Char.ofNat (c.toNat + 32) else c

/-- Case-insensitive character comparison (ASCII). -/
def ciEqc (a b : Char) : Bool := lowerA a == lowerA b

/-- Case-insensitive "starts with" on character lists. -/
def ciPre : List Char → List Char → Bool
  | [], _ => true
  | _ :: _, [] => false
  | a :: l, b :: m => ciEqc a b && ciPre l m

/-- Exact (case-sensitive) "starts with" on character lists. -/
def lPre : List Char → List Char → Bool
  | [], _ => true
  | _ :: _, [] => false
  | a :: l, b :: m => a == b && lPre l m

/-- The whitespace set of Python `str.split` / `str.strip` / `re` `\s`
(ASCII whitespace, the C0 separators, NEL, and the Unicode space
characters). -/
def pyIsSpace (c : Char) : Bool :=
  ([32, 9, 10, 13, 11, 12, 28, 29, 30, 31, 133, 160, 0x1680,
    0x2000, 0x2001, 0x2002, 0x2003, 0x2004, 0x2005, 0x2006, 0x2007,
    0x2008, 0x2009, 0x200A, 0x2028, 0x2029, 0x202F, 0x205F, 0x3000] :
    List Nat).contains c.toNat

/-- The left-brace character, written via its code point to keep brace
characters out of the source text. -/
def lbrace : Char := Char.ofNat 123

/-- The right-brace character. -/
def rbrace : Char := Char.ofNat 125

/-! ## The pattern language

Each Python regex of the source is a sequence of items:
a (case-insensitive) literal, a single-character class with a counted
quantifier, an ordered alternation of literals, or a backreference.
`cls gid p min max lazy` is `[class]{min,max}` (max `none` = unbounded),
capturing into group `gid` when present; `altL gid alts` is
`(alt1|alt2|...)`; `bref g` is `\g`.  `lit` literals match
case-insensitively (almost every pattern of the source carries `re.I`);
`litCS` is the case-sensitive literal for the few patterns compiled
without flags. -/
inductive RItem where
  | lit  : List Char → RItem
  | litCS : List Char → RItem
  | cls  : Option Nat → (Char → Bool) → Nat → Option Nat → Bool → RItem
  | altL : Option Nat → List (List Char) → RItem
  | bref : Nat → RItem

/-- Captured groups: group id paired with the captured input slice. -/
abbrev Caps := List (Nat × List Char)

/-- Python `group(g)` (empty string when the group is absent). -/
def capGet (caps : Caps) (g : Nat) : List Char :=
  match caps.find? (fun p => p.1 == g) with
  | some p => p.2
  | none => []

/-- Number of leading characters satisfying `p`. -/
def countLead (p : Char → Bool) : List Char → Nat
  | [] => 0
  | c :: t => if p c then countLead p t + 1 else 0

/-- Candidate repetition counts for a quantified class, in the order a
backtracking engine tries them: ascending for lazy, descending for
greedy. -/
def countsList (mn avail : Nat) (lazy : Bool) : List Nat :=
  let l := List.range' mn (avail + 1 - mn)
  if lazy then l else l.reverse

/-- A matcher continuation: what to do with the remaining input and the
captures once the items so far have matched. -/
abbrev MCont := List Char → Caps → Option (List Char × Caps)

/-- Extend the captures with a group, when the item captures. -/
def addCap (caps : Caps) (gid : Option Nat) (v : List Char) : Caps :=
  match gid with
  | some g => caps ++ [(g, v)]
  | none => caps

/-- Try each repetition count in order (the backtracking loop of a
quantified class), resuming the continuation on the rest of the items. -/
def tryCounts (k : MCont) (gid : Option Nat) (s : List Char) (caps : Caps) :
    List Nat → Option (List Char × Caps)
  | [] => none
  | c :: cs =>
      match k (s.drop c) (addCap caps gid (s.take c)) with
      | some r => some r
      | none => tryCounts k gid s caps cs

/-- Try each literal alternative in order. -/
def tryAlts (k : MCont) (gid : Option Nat) (s : List Char) (caps : Caps) :
    List (List Char) → Option (List Char × Caps)
  | [] => none
  | a :: more =>
      if ciPre a s then
        match k (s.drop a.length) (addCap caps gid (s.take a.length)) with
        | some r => some r
        | none => tryAlts k gid s caps more
      else tryAlts k gid s caps more

/-- Backtracking matcher in continuation style: match the item sequence
against a prefix of the input, then hand the remaining input and captures
to the continuation.  Alternatives and repetition counts are tried in
Python `re` order (ascending for lazy, descending for greedy), with full
backtracking into the continuation. -/
def rmatchK : List RItem → MCont → MCont
  | [] => fun k => k
  | .lit l :: rest => fun k s caps =>
      if ciPre l s then rmatchK rest k (s.drop l.length) caps else none
  | .litCS l :: rest => fun k s caps =>
      if lPre l s then rmatchK rest k (s.drop l.length) caps else none
  | .cls gid p mn mx lz :: rest => fun k s caps =>
      let avail := match mx with
        | some m => min (countLead p s) m
        | none => countLead p s
      if avail < mn then none
      else tryCounts (rmatchK rest k) gid s caps (countsList mn avail lz)
  | .altL gid alts :: rest => fun k s caps =>
      tryAlts (rmatchK rest k) gid s caps alts
  | .bref g :: rest => fun k s caps =>
      let v := capGet caps g
      if ciPre v s then rmatchK rest k (s.drop v.length) caps else none

/-- Match an item sequence at the start of the input. -/
def rmatch (pat : List RItem) (s : List Char) (caps : Caps) :
    Option (List Char × Caps) :=
  rmatchK pat (fun rem cs => some (rem, cs)) s caps

/-- `re.search`: leftmost match, returning the captures. -/
def rsearchCaps (pat : List RItem) : List Char → Option Caps
  | [] =>
      match rmatch pat [] [] with
      | some (_, c) => some c
      | none => none
  | s@(_ :: t) =>
      match rmatch pat s [] with
      | some (_, c) => some c
      | none => rsearchCaps pat t

/-- `re.sub` with a functional replacement (given the matched text and the
captures).  Fuel is the input length + 1; every step consumes at least one
character (no pattern of the source can match the empty string), so the
fuel never runs out. -/
def rsubAux : Nat → List RItem → (List Char → Caps → List Char) →
    List Char → List Char
  | 0, _, _, s => s
  | f + 1, pat, repl, s =>
      match rmatch pat s [] with
      | some (rem, caps) =>
          if rem.length < s.length then
            repl (s.take (s.length - rem.length)) caps ++ rsubAux f pat repl rem
          else
            match s with
            | [] => repl [] caps
            | c :: t => repl [] caps ++ c :: rsubAux f pat repl t
      | none =>
          match s with
          | [] => []
          | c :: t => c :: rsubAux f pat repl t

/-- `re.sub(pat, repl, s)` with a functional replacement. -/
def rsubF (pat : List RItem) (repl : List Char → Caps → List Char)
    (s : List Char) : List Char :=
  rsubAux (s.length + 1) pat repl s

/-- `re.sub(pat, r, s)` with a constant replacement string. -/
def rsubC (pat : List RItem) (r : List Char) (s : List Char) : List Char :=
  rsubF pat (fun _ _ => r) s

/-- Shorthand for string data. -/
def Lc (s : String) : List Char := s.data

/-- The class `[\s\S]` (any character). -/
def anyC : Char → Bool := fun _ => true

/-- The class `[^>]`. -/
def gtC : Char → Bool := fun c => c != '>'

/-- The class `["\']`. -/
def qC : Char → Bool := fun c => c == '"' || c == '\''

/-- The class `[^"\']`. -/
def nqC : Char → Bool := fun c => !(c == '"' || c == '\'')

/-- The class `[ \t]`. -/
def spTabC : Char → Bool := fun c => c == ' ' || c == '\t'

/-- The class `[dh]` under `re.I`. -/
def dhC : Char → Bool := fun c => ciEqc c 'd' || ciEqc c 'h'

/-- One occurrence of a quote: `["\']`. -/
def q1 : RItem := .cls none qC 1 (some 1) false

/-! ## The regexes of the source, item by item -/

/-- `<link[^>]*?rel=["\']canonical["\'][^>]*?href=["\']([^"\']+)["\']` -/
def P_canon1 : List RItem :=
  [.lit (Lc "<link"), .cls none gtC 0 none true, .lit (Lc "rel="), q1,
   .lit (Lc "canonical"), q1, .cls none gtC 0 none true, .lit (Lc "href="), q1,
   .cls (some 1) nqC 1 none false, q1]

/-- `<link[^>]*?href=["\']([^"\']+)["\'][^>]*?rel=["\']canonical["\']` -/
def P_canon2 : List RItem :=
  [.lit (Lc "<link"), .cls none gtC 0 none true, .lit (Lc "href="), q1,
   .cls (some 1) nqC 1 none false, q1, .cls none gtC 0 none true,
   .lit (Lc "rel="), q1, .lit (Lc "canonical"), q1]

/-- `<meta[^>]+property=["\']og:url["\'][^>]*content=["\']([^"\']+)["\']` -/
def P_ogurl : List RItem :=
  [.lit (Lc "<meta"), .cls none gtC 1 none false, .lit (Lc "property="), q1,
   .lit (Lc "og:url"), q1, .cls none gtC 0 none false, .lit (Lc "content="), q1,
   .cls (some 1) nqC 1 none false, q1]

/-- `<base[^>]*href=["\']([^"\']+)["\']` -/
def P_base : List RItem :=
  [.lit (Lc "<base"), .cls none gtC 0 none false, .lit (Lc "href="), q1,
   .cls (some 1) nqC 1 none false, q1]

/-- `<script[\s\S]*?</script>` -/
def P_script : List RItem :=
  [.lit (Lc "<script"), .cls none anyC 0 none true, .lit (Lc "</script>")]

/-- `<style[\s\S]*?</style>` -/
def P_style : List RItem :=
  [.lit (Lc "<style"), .cls none anyC 0 none true, .lit (Lc "</style>")]

/-- `<!--[\s\S]*?-->` -/
def P_comment : List RItem :=
  [.lit (Lc "<!--"), .cls none anyC 0 none true, .lit (Lc "-->")]

/-- The `_BLOCK_TAGS` alternation `(nav|header|footer|aside|iframe|noscript|template)`. -/
def blockTags : List (List Char) :=
  [Lc "nav", Lc "header", Lc "footer", Lc "aside", Lc "iframe",
   Lc "noscript", Lc "template"]

/-- `<(nav|...)[\s\S]*?</(nav|...)>` — note that as in the source the two
alternations are independent groups, not a backreference. -/
def P_blockstrip : List RItem :=
  [.lit (Lc "<"), .altL (some 1) blockTags, .cls none anyC 0 none true,
   .lit (Lc "</"), .altL (some 2) blockTags, .lit (Lc ">")]

/-- The class keyword alternation of the junk-element regex. -/
def junkWords : List (List Char) :=
  [Lc "comment", Lc "comments", Lc "sidebar", Lc "advert", Lc "ads",
   Lc "ad-", Lc "promo", Lc "newsletter", Lc "cookie", Lc "consent",
   Lc "subscribe"]

/-- `<[^>]+class=["\'][^"\']*(comment|...)[^"\']*["\'][^>]*>[\s\S]*?</[^>]+>` -/
def P_classjunk : List RItem :=
  [.lit (Lc "<"), .cls none gtC 1 none false, .lit (Lc "class="), q1,
   .cls none nqC 0 none false, .altL (some 1) junkWords,
   .cls none nqC 0 none false, q1, .cls none gtC 0 none false, .lit (Lc ">"),
   .cls none anyC 0 none true, .lit (Lc "</"), .cls none gtC 1 none false,
   .lit (Lc ">")]

/-- `<article[^>]*>([\s\S]*?)</article>` -/
def P_article : List RItem :=
  [.lit (Lc "<article"), .cls none gtC 0 none false, .lit (Lc ">"),
   .cls (some 1) anyC 0 none true, .lit (Lc "</article>")]

/-- `<main[^>]*>([\s\S]*?)</main>` -/
def P_main : List RItem :=
  [.lit (Lc "<main"), .cls none gtC 0 none false, .lit (Lc ">"),
   .cls (some 1) anyC 0 none true, .lit (Lc "</main>")]

/-- The content-class alternation of the `<div>` candidate regex. -/
def contentWords : List (List Char) :=
  [Lc "post-content", Lc "entry-content", Lc "article-content",
   Lc "content-area", Lc "post-body", Lc "content"]

/-- `<div[^>]+class=["\'][^"\']*(post-content|...)[^"\']*["\'][^>]*>([\s\S]*?)</div>` -/
def P_cdiv : List RItem :=
  [.lit (Lc "<div"), .cls none gtC 1 none false, .lit (Lc "class="), q1,
   .cls none nqC 0 none false, .altL (some 1) contentWords,
   .cls none nqC 0 none false, q1, .cls none gtC 0 none false, .lit (Lc ">"),
   .cls (some 2) anyC 0 none true, .lit (Lc "</div>")]

/-- `<body[^>]*>([\s\S]*?)</body>` -/
def P_body : List RItem :=
  [.lit (Lc "<body"), .cls none gtC 0 none false, .lit (Lc ">"),
   .cls (some 1) anyC 0 none true, .lit (Lc "</body>")]

/-- `<[^>]*>` (used by `_clean`). -/
def P_tag0 : List RItem :=
  [.lit (Lc "<"), .cls none gtC 0 none false, .lit (Lc ">")]

/-- `<[^>]+>` (used by `_html_to_text` and `table_to_text`). -/
def P_tag1 : List RItem :=
  [.lit (Lc "<"), .cls none gtC 1 none false, .lit (Lc ">")]

/-- `<h1[^>]*>([\s\S]*?)</h1>` -/
def P_h1 : List RItem :=
  [.lit (Lc "<h1"), .cls none gtC 0 none false, .lit (Lc ">"),
   .cls (some 1) anyC 0 none true, .lit (Lc "</h1>")]

/-- `<meta[^>]+property=["\']og:title["\'][^>]*content=["\']([^"\']+)["\']` -/
def P_ogtitle : List RItem :=
  [.lit (Lc "<meta"), .cls none gtC 1 none false, .lit (Lc "property="), q1,
   .lit (Lc "og:title"), q1, .cls none gtC 0 none false, .lit (Lc "content="), q1,
   .cls (some 1) nqC 1 none false, q1]

/-- `<title[^>]*>([\s\S]*?)</title>` -/
def P_title : List RItem :=
  [.lit (Lc "<title"), .cls none gtC 0 none false, .lit (Lc ">"),
   .cls (some 1) anyC 0 none true, .lit (Lc "</title>")]

/-- The title-class alternation. -/
def titleWords : List (List Char) :=
  [Lc "post-title", Lc "entry-title", Lc "article-title"]

/-- `<(h1|h2)[^>]*class=["\'][^"\']*(post-title|...)[^"\']*["\'][^>]*>([\s\S]*?)</\1>` -/
def P_alttitle : List RItem :=
  [.lit (Lc "<"), .altL (some 1) [Lc "h1", Lc "h2"],
   .cls none gtC 0 none false, .lit (Lc "class="), q1,
   .cls none nqC 0 none false, .altL (some 2) titleWords,
   .cls none nqC 0 none false, q1, .cls none gtC 0 none false, .lit (Lc ">"),
   .cls (some 3) anyC 0 none true, .lit (Lc "</"), .bref 1, .lit (Lc ">")]

/-- `<meta[^>]+name=["\']author["\'][^>]*content=["\']([^"\']+)["\']` -/
def P_authmeta : List RItem :=
  [.lit (Lc "<meta"), .cls none gtC 1 none false, .lit (Lc "name="), q1,
   .lit (Lc "author"), q1, .cls none gtC 0 none false, .lit (Lc "content="), q1,
   .cls (some 1) nqC 1 none false, q1]

/-- `<(?:span|div)[^>]+class=["\'][^"\']*(author|byline|post-author)[^"\']*["\'][^>]*>([\s\S]*?)</(?:span|div)>` -/
def P_authinline : List RItem :=
  [.lit (Lc "<"), .altL none [Lc "span", Lc "div"],
   .cls none gtC 1 none false, .lit (Lc "class="), q1,
   .cls none nqC 0 none false,
   .altL (some 1) [Lc "author", Lc "byline", Lc "post-author"],
   .cls none nqC 0 none false, q1, .cls none gtC 0 none false, .lit (Lc ">"),
   .cls (some 2) anyC 0 none true, .lit (Lc "</"),
   .altL none [Lc "span", Lc "div"], .lit (Lc ">")]

/-- `<a[^>]+rel=["\']author["\'][^>]*>([\s\S]*?)</a>` -/
def P_authrel : List RItem :=
  [.lit (Lc "<a"), .cls none gtC 1 none false, .lit (Lc "rel="), q1,
   .lit (Lc "author"), q1, .cls none gtC 0 none false, .lit (Lc ">"),
   .cls (some 1) anyC 0 none true, .lit (Lc "</a>")]

/-- `<br\s*/?>` -/
def P_br : List RItem :=
  [.lit (Lc "<br"), .cls none pyIsSpace 0 none false,
   .cls none (fun c => c == '/') 0 (some 1) false, .lit (Lc ">")]

/-- The block-tag alternation of step 2 of the text renderer. -/
def blkTagNames : List (List Char) :=
  [Lc "p", Lc "div", Lc "section", Lc "article", Lc "li", Lc "ul", Lc "ol",
   Lc "h1", Lc "h2", Lc "h3", Lc "h4", Lc "blockquote"]

/-- `<(/?)(p|div|section|article|li|ul|ol|h1|h2|h3|h4|blockquote)[^>]*>` -/
def P_blockTag : List RItem :=
  [.lit (Lc "<"), .altL (some 1) [Lc "/", Lc ""],
   .altL (some 2) blkTagNames, .cls none gtC 0 none false, .lit (Lc ">")]

/-- `<li[^>]*>` -/
def P_li : List RItem :=
  [.lit (Lc "<li"), .cls none gtC 0 none false, .lit (Lc ">")]

/-- `<table[\s\S]*?</table>` — the one substitution of `_html_to_text`
compiled without `re.I` (line 156), so its literals are
case-sensitive. -/
def P_table : List RItem :=
  [.litCS (Lc "<table"), .cls none anyC 0 none true, .litCS (Lc "</table>")]

/-- `<tr[^>]*>` -/
def P_tr : List RItem :=
  [.lit (Lc "<tr"), .cls none gtC 0 none false, .lit (Lc ">")]

/-- `</tr>` -/
def P_trC : List RItem := [.lit (Lc "</tr>")]

/-- `<t[dh][^>]*>` -/
def P_tdh : List RItem :=
  [.lit (Lc "<t"), .cls none dhC 1 (some 1) false,
   .cls none gtC 0 none false, .lit (Lc ">")]

/-- `</t[dh]>` -/
def P_tdhC : List RItem :=
  [.lit (Lc "</t"), .cls none dhC 1 (some 1) false, .lit (Lc ">")]

/-- `[ \t]+\n` -/
def P_spTabNl : List RItem :=
  [.cls none spTabC 1 none false, .lit (Lc "\n")]

/-- `\n{3,}` -/
def P_nl3 : List RItem := [.cls none (fun c => c == '\n') 3 none false]

/-- `[ \t]{2,}` -/
def P_sp2 : List RItem := [.cls none spTabC 2 none false]

/-- `\s+` -/
def P_ws : List RItem := [.cls none pyIsSpace 1 none false]

/-! ## Python string primitives -/

/-- Python `str.lstrip()`. -/
def pyLstrip (s : List Char) : List Char := s.dropWhile pyIsSpace

/-- Python `str.rstrip()`. -/
def pyRstrip (s : List Char) : List Char :=
  (s.reverse.dropWhile pyIsSpace).reverse

/-- Python `str.strip()`. -/
def pyStrip (s : List Char) : List Char := pyLstrip (pyRstrip s)

/-- Python `str.split()` (no separator): the maximal whitespace-separated
runs, leading/trailing whitespace ignored, never producing empty parts. -/
def pySplitAux : List Char → List Char → List (List Char)
  | [], acc => if acc.isEmpty then [] else [acc.reverse]
  | c :: t, acc =>
      if pyIsSpace c then
        if acc.isEmpty then pySplitAux t [] else acc.reverse :: pySplitAux t []
      else pySplitAux t (c :: acc)

/-- Python `str.split()`. -/
def pySplitWs (s : List Char) : List (List Char) := pySplitAux s []

/-- `_word_count`: `len([w for w in (s or "").strip().split() if w])`. -/
def pyWordCountL (s : List Char) : Nat :=
  ((pySplitWs (pyStrip s)).filter (fun w => !w.isEmpty)).length

/-! ## `html.unescape` (modelled subset)

The entity table is restricted to the common named references below;
references without a trailing semicolon and the Windows-1252 remapping of
some numeric references are not modelled.  Unknown references pass through
unchanged, exactly as in the Python function. -/

/-- Named character references recognized by the model. -/
def entityTable : List (String × Char) :=
  [("amp", '&'), ("lt", '<'), ("gt", '>'), ("quot", '"'), ("apos", '\''),
   ("nbsp", Char.ofNat 160), ("copy", '©'), ("reg", '®'), ("ndash", '–'),
   ("mdash", '—'), ("hellip", '…'), ("lsquo", '‘'), ("rsquo", '’'),
   ("ldquo", '“'), ("rdquo", '”'), ("middot", '·'), ("trade", '™')]

/-- Try a named reference at the text after an ampersand: returns the
replacement character and the number of consumed characters. -/
def entNamed (t : List Char) : List (String × Char) → Option (Char × Nat)
  | [] => none
  | (n, c) :: more =>
      if t.take (n.length + 1) == n.data ++ [';'] then some (c, n.length + 1)
      else entNamed t more

/-- Hexadecimal digit value. -/
def hexVal (c : Char) : Option Nat :=
  if '0' ≤ c ∧ c ≤ '9' then some (c.toNat - 48)
  else if 'a' ≤ c ∧ c ≤ 'f' then some (c.toNat - 87)
  else if 'A' ≤ c ∧ c ≤ 'F' then some (c.toNat - 70)
  else none

/-- Decimal digit value. -/
def decVal (c : Char) : Option Nat :=
  if '0' ≤ c ∧ c ≤ '9' then some (c.toNat - 48) else none

/-- Accumulate digits: value and number of digits consumed. -/
def parseDigits (base : Nat) (dv : Char → Option Nat) :
    List Char → Nat → Nat → Nat × Nat
  | [], v, k => (v, k)
  | c :: t, v, k =>
      match dv c with
      | some d => parseDigits base dv t (v * base + d) (k + 1)
      | none => (v, k)

/-- The character for a numeric reference: invalid code points give the
replacement character U+FFFD. -/
def charOfCode (v : Nat) : Char :=
  if v ≠ 0 ∧ v.isValidChar then Char.ofNat v else Char.ofNat 0xFFFD

/-- Try a numeric reference `#NNN;` or `#xHH;` at the text after an
ampersand. -/
def entNum (t : List Char) : Option (Char × Nat) :=
  match t with
  | '#' :: rest =>
      let hx := match rest with
        | c :: _ => c == 'x' || c == 'X'
        | [] => false
      let rest2 := if hx then rest.drop 1 else rest
      let vk := if hx then parseDigits 16 hexVal rest2 0 0
                else parseDigits 10 decVal rest2 0 0
      if vk.2 == 0 then none
      else
        match rest2.drop vk.2 with
        | ';' :: _ =>
            some (charOfCode vk.1, 1 + (if hx then 1 else 0) + vk.2 + 1)
        | _ => none
  | _ => none

/-- `html.unescape` (modelled subset, see above). -/
def unescAux : Nat → List Char → List Char
  | 0, s => s
  | _ + 1, [] => []
  | f + 1, c :: t =>
      if c == '&' then
        match entNamed t entityTable with
        | some (ch, k) => ch :: unescAux f (t.drop k)
        | none =>
            match entNum t with
            | some (ch, k) => ch :: unescAux f (t.drop k)
            | none => '&' :: unescAux f t
      else c :: unescAux f t

/-- `html.unescape` on character lists. -/
def pyUnescape (s : List Char) : List Char := unescAux (s.length + 1) s

/-! ## The extraction helpers of the source -/

/-- `_discover_url(html, passed)`: explicit URL, else canonical link (either
attribute order), else `og:url`, else `<base href>`, else empty. -/
def discoverUrl (html passed : List Char) : List Char :=
  if !passed.isEmpty then passed
  else
    match rsearchCaps P_canon1 html with
    | some caps => capGet caps 1
    | none =>
        match rsearchCaps P_canon2 html with
        | some caps => capGet caps 1
        | none =>
            match rsearchCaps P_ogurl html with
            | some caps => capGet caps 1
            | none =>
                match rsearchCaps P_base html with
                | some caps => capGet caps 1
                | none => []

/-- A scheme character for URL parsing (letter, digit, `+`, `-`, `.`). -/
def isSchemeChar (c : Char) : Bool :=
  c.isAlphanum || c == '+' || c == '-' || c == '.'

/-- Drop a leading `scheme:` when the part before the first colon is a
valid scheme (`urllib.parse` behaviour for the inputs in scope; exotic
bracketed IPv6 hosts are not modelled). -/
def dropScheme (u : List Char) : List Char :=
  let pre := u.takeWhile (fun c => c != ':')
  let headAlpha : Bool := match pre with | c :: _ => c.isAlpha | [] => false
  if decide (pre.length < u.length) && !pre.isEmpty && headAlpha &&
      pre.all isSchemeChar then
    u.drop (pre.length + 1)
  else u

/-- `urlparse(u)`'s netloc: present only when the (scheme-stripped) URL
starts with `//`; it extends to the next `/`, `?` or `#`. -/
def urlNetloc (u : List Char) : Option (List Char) :=
  let rest := dropScheme u
  if rest.take 2 == Lc "//" then
    some ((rest.drop 2).takeWhile (fun c => !(c == '/' || c == '?' || c == '#')))
  else none

/-- `urlparse(u).hostname or ""` as a fallible operation.  `urlsplit`
raises `ValueError` ("Invalid IPv6 URL") when the netloc contains an
unmatched square bracket — the raising path that reaches the `except`
branch of `_extract_domain_site`.  (CPython 3.11+ additionally rejects
matched brackets around a non-IP host, and certain non-NFKC netlocs also
raise; neither extension is modelled.)  Otherwise the hostname is the part
of the netloc after the last `@`, between the brackets when present, else
up to the first `:`, lower-cased — ASCII case only here, and any
percent-zone suffix kept as is, as in the `hostname` property. -/
def urlHostnameE (u : List Char) : Except Unit (List Char) :=
  match urlNetloc u with
  | none => .ok []
  | some netloc =>
      if (netloc.contains '[' && !netloc.contains ']') ||
          (netloc.contains ']' && !netloc.contains '[') then .error ()
      else
        let hostinfo := (netloc.reverse.takeWhile (fun c => c != '@')).reverse
        let host :=
          if hostinfo.contains '[' then
            ((hostinfo.dropWhile (fun c => c != '[')).drop 1).takeWhile
              (fun c => c != ']')
          else hostinfo.takeWhile (fun c => c != ':')
        let pre := host.takeWhile (fun c => c != '%')
        .ok (pre.map lowerA ++ host.drop pre.length)

/-- The public-suffix-like ending list of `_extract_domain_site`, in source
order. -/
def exts : List (List Char) :=
  [Lc ".co.uk", Lc ".com.au", Lc ".co.za", Lc ".co.in", Lc ".co.jp", Lc ".co.kr",
   Lc ".com", Lc ".net", Lc ".org", Lc ".edu", Lc ".gov", Lc ".mil", Lc ".int",
   Lc ".info", Lc ".biz", Lc ".name", Lc ".pro", Lc ".museum", Lc ".coop",
   Lc ".uk", Lc ".de", Lc ".fr", Lc ".it", Lc ".es", Lc ".nl", Lc ".be",
   Lc ".ch", Lc ".at", Lc ".se", Lc ".no", Lc ".dk", Lc ".fi", Lc ".pl",
   Lc ".cz", Lc ".hu", Lc ".io", Lc ".ai", Lc ".ly", Lc ".me", Lc ".tv",
   Lc ".cc", Lc ".ws", Lc ".blog"]

/-- Stable insertion by descending length (an earlier element precedes a
later one of equal length), matching Python's stable
`sort(key=len, reverse=True)`. -/
def insertLenDesc (x : List Char) : List (List Char) → List (List Char)
  | [] => [x]
  | y :: ys => if x.length < y.length then y :: insertLenDesc x ys
               else x :: y :: ys

/-- Stable sort by descending length. -/
def sortLenDesc (l : List (List Char)) : List (List Char) :=
  l.foldr insertLenDesc []

/-- The ending list after `exts.sort(key=len, reverse=True)`. -/
def extsSorted : List (List Char) := sortLenDesc exts

/-- Python `site.endswith(ext)`. -/
def lEnds (pat s : List Char) : Bool :=
  if pat.length ≤ s.length then s.drop (s.length - pat.length) == pat
  else false

/-- The suffix-stripping loop of `_extract_domain_site`: strip the first
matching ending (the loop `break`s at the first hit). -/
def stripFirstExt (site : List Char) : List (List Char) → List Char
  | [] => site
  | e :: more =>
      if lEnds e site then site.take (site.length - e.length)
      else stripFirstExt site more

/-- The endings of the except-branch suffix sub
`re.sub(r'(\.co\.uk|\.com\.au|\.com|\.net|\.org)$', "", host, flags=re.I)`,
in source order. -/
def fbExts : List (List Char) :=
  [Lc ".co.uk", Lc ".com.au", Lc ".com", Lc ".net", Lc ".org"]

/-- Does one of the endings match this whole tail (case-insensitively)?
Because of the `$` anchor, a candidate matches at a position exactly when
it equals the entire remaining tail. -/
def fbMatchAt (tail : List Char) : List (List Char) → Bool
  | [] => false
  | e :: more => (e.length == tail.length && ciPre e tail) || fbMatchAt tail more

/-- The `$`-anchored sub of the except branch: scanning left to right, the
first position whose tail equals one of the endings wins and the match
(extending to the end) is deleted.  (Python's `$` also matches before a
final newline; hosts with a trailing newline are not in scope.) -/
def fbStripGo : List Char → List Char
  | [] => []
  | c :: t => if fbMatchAt (c :: t) fbExts then [] else c :: fbStripGo t

/-- `([^/]+)` at a position: the non-empty run up to the next slash. -/
def neSeg (s : List Char) : Option (List Char) :=
  let g := s.takeWhile (fun c => c != '/')
  if g.isEmpty then none else some g

/-- The part of `https?://(?:www\.)?([^/]+)` after the scheme letters:
require `://`, then the optional `www.` and the captured segment.  When
consuming `www.` starves `[^/]+` (the next character is a slash or the
end), the backtracking retry without it captures `www.` itself, exactly as
in Python. -/
def fbAfterScheme (r : List Char) : Option (List Char) :=
  if lPre (Lc "://") r then
    if lPre (Lc "www.") (r.drop 3) then
      match neSeg ((r.drop 3).drop 4) with
      | some g => some g
      | none => neSeg (r.drop 3)
    else neSeg (r.drop 3)
  else none

/-- `https?://(?:www\.)?([^/]+)` anchored at this position.  The pattern
is compiled without `re.I` (line 69), so it is matched case-sensitively
and translated directly rather than through the case-insensitive engine
above.  Skipping an `s` that is present can never help — `://` cannot
start with `s` — so the greedy `s?` needs no backtracking. -/
def fbMatchHere (s : List Char) : Option (List Char) :=
  if lPre (Lc "http") s then
    fbAfterScheme
      (if lPre (Lc "s") (s.drop 4) then (s.drop 4).drop 1 else s.drop 4)
  else none

/-- `re.search` for the except-branch pattern: leftmost occurrence,
returning group 1. -/
def fbSearch : List Char → Option (List Char)
  | [] => none
  | s@(_ :: t) =>
      match fbMatchHere s with
      | some g => some g
      | none => fbSearch t

/-- `_extract_domain_site(u)`: the try branch takes `urlparse(u).hostname`,
strips a leading `www.` and the first matching ending of the ranked list,
with `"unknown"` fallbacks for empty results.  When `urlparse` raises (see
`urlHostnameE`) the except branch extracts the host with the permissive
regex and strips the small suffix set — without `"unknown"` padding for
the site, as in the source — and only when the regex also fails does it
return `("unknown", "unknown")`. -/
def extractDomainSite (u : List Char) : List Char × List Char :=
  match urlHostnameE u with
  | .ok host0 =>
      let host := if host0.take 4 == Lc "www." then host0.drop 4 else host0
      let site := stripFirstExt host extsSorted
      (if host.isEmpty then Lc "unknown" else host,
       if site.isEmpty then Lc "unknown" else site)
  | .error _ =>
      match fbSearch u with
      | some host => (host, fbStripGo host)
      | none => (Lc "unknown", Lc "unknown")

/-- `_strip_blocks(html)`: remove scripts, styles, comments, structural
non-content blocks and junk-classed elements, in source order. -/
def stripBlocks (html : List Char) : List Char :=
  let h := rsubC P_script [] html
  let h := rsubC P_style [] h
  let h := rsubC P_comment [] h
  let h := rsubC P_blockstrip [] h
  rsubC P_classjunk [] h

/-- The payload selection of `_pick_section`:
`(m.group(1) if ... ) or (m.group(2) if ...)`. -/
def candPayload (caps : Caps) : List Char :=
  let g1 := capGet caps 1
  if g1.isEmpty then capGet caps 2 else g1

/-- `_pick_section(html)`: keep the candidate with the strictly greatest
whitespace-collapsed length across the three patterns; fall back to
`<body>` contents, then to the whole document. -/
def pickSection (html : List Char) : List Char :=
  let step := fun (best : List Char) (pat : List RItem) =>
    match rsearchCaps pat html with
    | some caps =>
        let payload := candPayload caps
        if (rsubC P_ws [' '] best).length < (rsubC P_ws [' '] payload).length
        then payload else best
    | none => best
  let best := [P_article, P_main, P_cdiv].foldl step []
  if best.isEmpty then
    match rsearchCaps P_body html with
    | some caps =>
        let b := capGet caps 1
        if b.isEmpty then html else b
    | none => html
  else best

/-- `_clean(s)`: strip tags, unescape entities, collapse whitespace runs,
trim. -/
def clean (s : List Char) : List Char :=
  pyStrip (rsubC P_ws [' '] (pyUnescape (rsubC P_tag0 [] s)))

/-- `_extract_title(html)`: first `<h1>`, else `og:title`, else `<title>`,
else a title-classed `<h1>`/`<h2>`. -/
def extractTitle (html : List Char) : List Char :=
  match rsearchCaps P_h1 html with
  | some caps => clean (capGet caps 1)
  | none =>
      match rsearchCaps P_ogtitle html with
      | some caps => clean (capGet caps 1)
      | none =>
          match rsearchCaps P_title html with
          | some caps => clean (capGet caps 1)
          | none =>
              match rsearchCaps P_alttitle html with
              | some caps => clean (capGet caps 3)
              | none => []

/-- `_extract_author(html)`: author meta, else author-classed span/div,
else `rel=author` link. -/
def extractAuthor (html : List Char) : List Char :=
  match rsearchCaps P_authmeta html with
  | some caps => clean (capGet caps 1)
  | none =>
      match rsearchCaps P_authinline html with
      | some caps => clean (capGet caps 2)
      | none =>
          match rsearchCaps P_authrel html with
          | some caps => clean (capGet caps 1)
          | none => []

/-- `re.match(r"h[1-4]$", tag, re.I)` on the captured tag name. -/
def isHeading (tag : List Char) : Bool :=
  match tag with
  | [a, b] => ciEqc a 'h' && decide ('1' ≤ b ∧ b ≤ '4')
  | _ => false

/-- `table_to_text` of `_html_to_text`: rows to lines, cells to spaces,
remaining tags stripped; applied to the whole `<table>…</table>` match. -/
def tableToText (t : List Char) : List Char :=
  let a := rsubC P_tr (Lc "\n") t
  let a := rsubC P_trC (Lc "\n") a
  let a := rsubC P_tdh (Lc " ") a
  let a := rsubC P_tdhC (Lc " ") a
  rsubC P_tag1 [] a

/-- `_html_to_text(snippet)`: the seven transformation steps of the text
renderer, in source order. -/
def htmlToText (snippet : List Char) : List Char :=
  let s := rsubC P_br (Lc "\n") snippet
  let s := rsubF P_blockTag
    (fun _ caps =>
      if !(capGet caps 1).isEmpty || isHeading (capGet caps 2)
      then Lc "\n" else []) s
  let s := rsubC P_li (Lc "• ") s
  let s := rsubF P_table (fun matched _ => tableToText matched) s
  let s := rsubC P_tag1 [] s
  let s := s.filter (fun c => c != '\r')
  let s := rsubC P_spTabNl (Lc "\n") s
  let s := rsubC P_nl3 (Lc "\n\n") s
  let s := rsubC P_sp2 (Lc " ") s
  pyStrip (pyUnescape s)

/-- `_cap_chars(s, n)`: hard cut at `n` plus `"..."` when the text is
longer than a positive `n`. -/
def capChars (s : List Char) (n? : Option Int) : List Char :=
  if s.isEmpty then []
  else
    let n := n?.getD 8000
    if n ≠ 0 ∧ 0 < n ∧ (n : Int) < s.length then
      s.take n.toNat ++ Lc "..."
    else s

/-- `s.rfind(" ", 0, e)` restricted to an end bound: the greatest index
below `e` holding a space, as an `Option`. -/
def lastSpaceBelow (s : List Char) : Nat → Option Nat
  | 0 => none
  | e + 1 =>
      if s.get? e == some ' ' then some e else lastSpaceBelow s e

/-- `_cap_wordsafe(s, n)`: find the last space strictly below index
`n - 1`; fall back to a hard cut at `n` when there is none or it lies
before half of `n`; right-trim the kept prefix and append a space and the
ellipsis glyph. -/
def capWordsafe (s : List Char) (n? : Option Int) : List Char :=
  if s.isEmpty then []
  else
    let n := n?.getD 8000
    if ¬(n ≠ 0 ∧ 0 < n) ∨ (s.length : Int) ≤ n then s
    else
      let cut : Int :=
        match lastSpaceBelow s (max 0 (n - 1)).toNat with
        | some j => (j : Int)
        | none => -1
      let cut2 : Int := if cut == (-1 : Int) || decide (2 * cut < n) then n else cut
      pyRstrip (s.take cut2.toNat) ++ Lc " …"

/-! ## Placeholder values, template rendering, JSON serialization -/

/-- A placeholder value: a string field or the integer word count. -/
inductive PVal where
  | s : String → PVal
  | i : Nat → PVal
deriving DecidableEq

/-- Python `str(v)` on a placeholder value. -/
def pstr : PVal → String
  | .s v => v
  | .i n => toString n

/-- A character ending a replacement-field name (`}`; `!` and `:` start a
conversion / format spec). -/
def nameStop (c : Char) : Bool := c == rbrace || c == '!' || c == ':'

/-- A plain mapping key: non-empty, not all digits (all-digit names are
positional and raise for a mapping), and free of attribute/index/nested
syntax. -/
def plainNameOk (n : List Char) : Bool :=
  !n.isEmpty && !(n.all Char.isDigit) &&
  !(n.contains '.') && !(n.contains '[') && !(n.contains lbrace)

/-- `str.format_map` with the `_Safe` dict of the source: a known `{name}`
is substituted by `str(value)`, an unknown one is echoed back verbatim
(`_Safe.__missing__`), doubled braces are literals, and malformed
templates raise (modelled as `Except.error`).  Conversions (`{x!r}`) and
format specs (`{x:>5}`) are modelled as failures routed to the caller's
fallback; the source never feeds them in scope of the claims. -/
def fmAux : Nat → List (String × PVal) → List Char → Except Unit (List Char)
  | 0, _, _ => .error ()
  | _ + 1, _, [] => .ok []
  | f + 1, ps, c :: t =>
      if c == lbrace then
        match t with
        | c2 :: t2 =>
            if c2 == lbrace then (fmAux f ps t2).map (fun r => lbrace :: r)
            else
              let name := t.takeWhile (fun ch => !nameStop ch)
              let rest := t.drop name.length
              match rest with
              | r :: rt =>
                  if r == rbrace then
                    if plainNameOk name then
                      match List.lookup (String.mk name) ps with
                      | some v =>
                          (fmAux f ps rt).map (fun out => (pstr v).data ++ out)
                      | none =>
                          (fmAux f ps rt).map
                            (fun out => lbrace :: (name ++ rbrace :: out))
                    else .error ()
                  else .error ()
              | [] => .error ()
        | [] => .error ()
      else if c == rbrace then
        match t with
        | c2 :: t2 =>
            if c2 == rbrace then (fmAux f ps t2).map (fun r => rbrace :: r)
            else .error ()
        | [] => .error ()
      else (fmAux f ps t).map (fun r => c :: r)

/-- `tmpl.format_map(_Safe(placeholders))`. -/
def pyFormatMap (tmpl : String) (ps : List (String × PVal)) :
    Except Unit String :=
  (fmAux (tmpl.data.length + 1) ps tmpl.data).map String.mk

/-- Python `str.replace` (all non-overlapping occurrences, left to right,
replacements not rescanned). -/
def pyReplaceAux : Nat → List Char → List Char → List Char → List Char
  | 0, _, _, s => s
  | f + 1, pat, r, s =>
      if lPre pat s then r ++ pyReplaceAux f pat r (s.drop pat.length)
      else
        match s with
        | [] => []
        | c :: t => c :: pyReplaceAux f pat r t

/-- Python `s.replace(pat, r)`. -/
def pyReplace (s pat r : List Char) : List Char :=
  pyReplaceAux (s.length + 1) pat r s

/-- The `except` fallback of the template rendering: sequentially replace
each literal `{key}` token by its value. -/
def fallbackReplace (tmpl : List Char) (ps : List (String × PVal)) :
    List Char :=
  ps.foldl
    (fun acc kv => pyReplace acc (lbrace :: (kv.1.data ++ [rbrace])) (pstr kv.2).data)
    tmpl

/-- Lines 265-273 of the source: empty template gives an empty prompt;
otherwise `format_map`, falling back to literal sequential replacement if
it raises. -/
def renderPrompt (tmpl : String) (ps : List (String × PVal)) : String :=
  if tmpl.isEmpty then ""
  else
    match pyFormatMap tmpl ps with
    | .ok r => r
    | .error _ => String.mk (fallbackReplace tmpl.data ps)

/-- Lower-case hexadecimal digit. -/
def hexDigit (n : Nat) : Char :=
  if n < 10 then Char.ofNat (48 + n) else Char.ofNat (87 + n)

/-- JSON string escaping as in `json.dumps(..., ensure_ascii=False)`:
quote, backslash and control characters only. -/
def jsonEscChar (c : Char) : List Char :=
  if c == '"' then Lc "\\\""
  else if c == '\\' then Lc "\\\\"
  else if c == '\n' then Lc "\\n"
  else if c == '\r' then Lc "\\r"
  else if c == '\t' then Lc "\\t"
  else if c == Char.ofNat 8 then Lc "\\b"
  else if c == Char.ofNat 12 then Lc "\\f"
  else if c.toNat < 32 then
    Lc "\\u00" ++ [hexDigit (c.toNat / 16), hexDigit (c.toNat % 16)]
  else [c]

/-- Escape a JSON string body. -/
def jsonEsc (s : List Char) : List Char := (s.map jsonEscChar).flatten

/-- Serialize a placeholder value. -/
def dumpVal : PVal → List Char
  | .s v => '"' :: (jsonEsc v.data ++ ['"'])
  | .i n => (toString n).data

/-- `json.dumps(dict, ensure_ascii=False)` with insertion order and the
default `", "` / `": "` separators. -/
def jsonDumps (ps : List (String × PVal)) : String :=
  String.mk (lbrace ::
    (List.intercalate (Lc ", ")
      (ps.map (fun kv =>
        '"' :: (jsonEsc kv.1.data ++ '"' :: ':' :: ' ' :: dumpVal kv.2))) ++
     [rbrace]))

/-! ## The `HTMLParseSync.run` pipeline -/

/-- `_strip_blocks(html or "")` of the run pipeline. -/
def cleanedDoc (html : String) : List Char := stripBlocks html.data

/-- The rendered plain text before truncation:
`_html_to_text(_pick_section(_strip_blocks(html)))`. -/
def renderedText (html : String) : List Char :=
  htmlToText (pickSection (cleanedDoc html))

/-- Lines 232-242 of the source: `int(max_chars)` with its `try/except`
(`none` models a value `int()` raises on, reverting to the default 8000),
negative values disable capping, non-negative values are clamped into
`[100, 100000]` and fed to the selected truncation policy. -/
def capStep (content : List Char) (mc : Option Int) (ws : Bool) : List Char :=
  let mci : Int := match mc with | some n => n | none => 8000
  if mci < 0 then content
  else (if ws then capWordsafe else capChars) content
    (some (max 100 (min mci 100000)))

/-- The final (post-truncation) content of a run. -/
def finalContent (html : String) (mc : Option Int) (ws : Bool) : List Char :=
  capStep (renderedText html) mc ws

/-- The placeholder dict of `run` (insertion order as in the source).
`now` is the `datetime.utcnow().isoformat()` value, passed as a parameter
since it is the only non-deterministic input. -/
def runPlaceholders (html url : String) (mc : Option Int) (ws : Bool)
    (now : String) : List (String × PVal) :=
  let discovered := discoverUrl html.data url.data
  let ds := extractDomainSite discovered
  let content := finalContent html mc ws
  let snip := (if ws then capWordsafe else capChars) content (some 1000)
  [("url", .s (if discovered.isEmpty then "unknown" else String.mk discovered)),
   ("domain", .s (String.mk ds.1)),
   ("site_name", .s (String.mk ds.2)),
   ("title", .s (String.mk (extractTitle (cleanedDoc html)))),
   ("content", .s (String.mk content)),
   ("content_snip", .s (String.mk snip)),
   ("author", .s (String.mk (extractAuthor (cleanedDoc html)))),
   ("word_count", .i (pyWordCountL content)),
   ("version", .s "0.1.3"),
   ("extracted_at", .s (now ++ "Z"))]

/-- The output tuple of `run`:
`(json, title, content, author, domain, site_name, word_count, prompt)`. -/
structure RunOut where
  json : String
  title : String
  content : String
  author : String
  domain : String
  site_name : String
  word_count : String
  prompt : String
deriving DecidableEq

/-- Python `x or ""` on a string (the identity; kept for fidelity to the
return statement of the source). -/
def pyOrEmpty (s : String) : String := if s.data.isEmpty then "" else s

/-- `HTMLParseSync.run(html, url, max_chars, word_safe, prompt_template)`.
The locals of the source are recomputed here instead of shared via `let`;
the pipeline is pure, so the value is identical. -/
def run (html url : String) (mc : Option Int) (ws : Bool) (tmpl now : String) :
    RunOut :=
  let ps := runPlaceholders html url mc ws now
  { json := jsonDumps ps
    title := pyOrEmpty (String.mk (extractTitle (cleanedDoc html)))
    content := pyOrEmpty (String.mk (finalContent html mc ws))
    author := pyOrEmpty (String.mk (extractAuthor (cleanedDoc html)))
    domain := pyOrEmpty (String.mk (extractDomainSite (discoverUrl html.data url.data)).1)
    site_name := pyOrEmpty (String.mk (extractDomainSite (discoverUrl html.data url.data)).2)
    word_count := toString (pyWordCountL (finalContent html mc ws))
    prompt := pyOrEmpty (renderPrompt tmpl ps) }

/-- `int(max_chars)`: `none` models an argument the conversion raises on. -/
def pyIntE (mc : Option Int) : Except String Int :=
  match mc with
  | some n => .ok n
  | none => .error "int() raised"

/-- A Python `try/except` around a fallible expression, with a fallback
value. -/
def tryE (x : Except String α) (fallback : α) : Except String α :=
  match x with
  | .ok a => .ok a
  | .error _ => .ok fallback

/-- `format_map` as a fallible operation. -/
def pyFormatMapE (tmpl : String) (ps : List (String × PVal)) :
    Except String String :=
  match pyFormatMap tmpl ps with
  | .ok r => .ok r
  | .error _ => .error "format_map raised"

/-- The exception-explicit rendering of `run`: the two operations of the
source that can raise (`int(max_chars)` and `format_map`) are threaded
through `Except`, with the `try/except` handlers of the source as
`tryE`.  An uncaught exception would surface as `Except.error`. -/
def runE (html url : String) (mc : Option Int) (ws : Bool) (tmpl now : String) :
    Except String RunOut :=
  let raw := html.data
  let discovered := discoverUrl raw url.data
  let ds := extractDomainSite discovered
  let cleaned := stripBlocks raw
  let sect := pickSection cleaned
  let title := extractTitle cleaned
  let author := extractAuthor cleaned
  let content0 := htmlToText sect
  match tryE (pyIntE mc) 8000 with
  | .error e => .error e
  | .ok mci =>
      let content := if mci < 0 then content0
        else (if ws then capWordsafe else capChars) content0
          (some (max 100 (min mci 100000)))
      let wc := pyWordCountL content
      let snip := (if ws then capWordsafe else capChars) content (some 1000)
      let ps : List (String × PVal) :=
        [("url", .s (if discovered.isEmpty then "unknown" else String.mk discovered)),
         ("domain", .s (String.mk ds.1)),
         ("site_name", .s (String.mk ds.2)),
         ("title", .s (String.mk title)),
         ("content", .s (String.mk content)),
         ("content_snip", .s (String.mk snip)),
         ("author", .s (String.mk author)),
         ("word_count", .i wc),
         ("version", .s "0.1.3"),
         ("extracted_at", .s (now ++ "Z"))]
      match (if tmpl.isEmpty then Except.ok "" else
        tryE (pyFormatMapE tmpl ps) (String.mk (fallbackReplace tmpl.data ps))) with
      | .error e => .error e
      | .ok prompt =>
          .ok
            { json := jsonDumps ps
              title := pyOrEmpty (String.mk title)
              content := pyOrEmpty (String.mk content)
              author := pyOrEmpty (String.mk author)
              domain := pyOrEmpty (String.mk ds.1)
              site_name := pyOrEmpty (String.mk ds.2)
              word_count := toString wc
              prompt := pyOrEmpty prompt }

/-! ## String wrappers and claim-side definitions -/

/-- `_html_to_text` on strings. -/
def htmlToTextS (s : String) : String := String.mk (htmlToText s.data)

/-- `_pick_section` on strings. -/
def pickSectionS (s : String) : String := String.mk (pickSection s.data)

/-- `_extract_domain_site` on strings. -/
def extractDomainSiteS (u : String) : String × String :=
  (String.mk (extractDomainSite u.data).1, String.mk (extractDomainSite u.data).2)

/-- `_cap_chars` on strings. -/
def capCharsS (s : String) (n? : Option Int) : String :=
  String.mk (capChars s.data n?)

/-- `_cap_wordsafe` on strings. -/
def capWordsafeS (s : String) (n? : Option Int) : String :=
  String.mk (capWordsafe s.data n?)

/-- Claim-side token counter: the number of maximal non-whitespace runs,
counted by a single left-to-right scan (one token per position that is
non-whitespace and not preceded by a non-whitespace character). -/
def tokenCountAux : Bool → List Char → Nat
  | _, [] => 0
  | inWord, c :: t =>
      if pyIsSpace c then tokenCountAux false t
      else (if inWord then 0 else 1) + tokenCountAux true t

/-- The number of maximal non-whitespace runs of a character list. -/
def tokenCount (s : List Char) : Nat := tokenCountAux false s

/-- The greatest index at or before `e - 1` holding a whitespace character
(claim-side helper for the word-safe truncation claim). -/
def lastWsAtOrBefore (s : List Char) : Nat → Option Nat
  | 0 => none
  | e + 1 =>
      if (s.get? e).any pyIsSpace then some e else lastWsAtOrBefore s e

/-- Word-safe truncation as described by the claim (spec wording, for
comparison with `capWordsafe`): the last whitespace position at or before
index `n - 1`; a cut there when it lies at or after half of `n`, a hard
cut at `n` otherwise. -/
def wordsafeClaimed (s : List Char) (n : Nat) : List Char :=
  if s.length ≤ n then s
  else
    match lastWsAtOrBefore s n with
    | some j =>
        if 2 * j < n then pyRstrip (s.take n) ++ Lc " …"
        else pyRstrip (s.take j) ++ Lc " …"
    | none => pyRstrip (s.take n) ++ Lc " …"

/-- `wordsafeClaimed` on strings. -/
def wordsafeClaimedS (s : String) (n : Nat) : String :=
  String.mk (wordsafeClaimed s.data n)

/-- A document of 105 letters: its rendered text is 105 characters long,
above the lower clamp bound 100. -/
def cexHtml : String := String.mk (List.replicate 105 'a')

/-- A placeholder map with the keys of a run, with `title` and `author`
parametrized (the claim's example has `title = "X"`, `author = "Y"` and no
`ghost` key). -/
def psExample (t a : String) : List (String × PVal) :=
  [("url", .s "u"), ("domain", .s "d"), ("site_name", .s "s"), ("title", .s t),
   ("content", .s "c"), ("content_snip", .s "c"), ("author", .s a),
   ("word_count", .i 0), ("version", .s "0.1.3"), ("extracted_at", .s "TZ")]

set_option maxRecDepth 40000

/-! ## Helper lemmas -/

lemma pyOrEmpty_eq (s : String) : pyOrEmpty s = s := by
  cases s with
  | mk data =>
      cases data with
      | nil => rfl
      | cons c t => rfl

lemma pySplitAux_length (s : List Char) : ∀ acc,
    (pySplitAux s acc).length =
      if acc.isEmpty then tokenCountAux false s else 1 + tokenCountAux true s := by
  induction s with
  | nil => intro acc; cases acc <;> simp [pySplitAux, tokenCountAux]
  | cons c t ih =>
      intro acc
      by_cases hws : pyIsSpace c
      · cases acc with
        | nil => simp [pySplitAux, tokenCountAux, hws, ih]
        | cons a as =>
            simp [pySplitAux, tokenCountAux, hws, ih]
            omega
      · cases acc with
        | nil => simp [pySplitAux, tokenCountAux, hws, ih]
        | cons a as => simp [pySplitAux, tokenCountAux, hws, ih]

lemma pySplitAux_ne_nil (s : List Char) : ∀ acc x, x ∈ pySplitAux s acc → x ≠ [] := by
  induction s with
  | nil =>
      intro acc x hx
      by_cases h : acc.isEmpty
      · simp [pySplitAux, h] at hx
      · simp [pySplitAux, h] at hx
        subst hx
        simp [List.isEmpty_iff] at h
        simp [h]
  | cons c t ih =>
      intro acc x hx
      by_cases hws : pyIsSpace c
      · by_cases h : acc.isEmpty
        · simp [pySplitAux, hws, h] at hx
          exact ih [] x hx
        · simp [pySplitAux, hws, h] at hx
          rcases hx with hx | hx
          · subst hx
            simp [List.isEmpty_iff] at h
            simp [h]
          · exact ih [] x hx
      · simp [pySplitAux, hws] at hx
        exact ih (c :: acc) x hx

lemma tokenCountAux_all_ws (t : List Char) (ht : ∀ c ∈ t, pyIsSpace c) :
    ∀ b, tokenCountAux b t = 0 := by
  induction t with
  | nil => intro b; rfl
  | cons c u ih =>
      intro b
      have hc : pyIsSpace c := ht c (by simp)
      simp [tokenCountAux, hc]
      exact ih (fun d hd => ht d (by simp [hd])) false

lemma tokenCountAux_append_ws (t : List Char) (ht : ∀ c ∈ t, pyIsSpace c)
    (s : List Char) : ∀ b, tokenCountAux b (s ++ t) = tokenCountAux b s := by
  induction s with
  | nil => intro b; simpa [tokenCountAux] using tokenCountAux_all_ws t ht b
  | cons c u ih =>
      intro b
      by_cases hc : pyIsSpace c <;> simp [tokenCountAux, hc, ih]

lemma tokenCountAux_lstrip (s : List Char) :
    tokenCountAux false (s.dropWhile pyIsSpace) = tokenCountAux false s := by
  induction s with
  | nil => rfl
  | cons c t ih =>
      by_cases hc : pyIsSpace c <;> simp [List.dropWhile, tokenCountAux, hc, ih]

lemma tokenCountAux_rstrip (s : List Char) :
    tokenCountAux false (pyRstrip s) = tokenCountAux false s := by
  have hdecomp : s = pyRstrip s ++ (s.reverse.takeWhile pyIsSpace).reverse := by
    unfold pyRstrip
    conv_lhs =>
      rw [← List.reverse_reverse s,
        ← List.takeWhile_append_dropWhile (p := pyIsSpace) (l := s.reverse)]
    rw [List.reverse_append]
  calc tokenCountAux false (pyRstrip s)
      = tokenCountAux false
          (pyRstrip s ++ (s.reverse.takeWhile pyIsSpace).reverse) := by
        rw [tokenCountAux_append_ws _
          (fun c hc => List.mem_takeWhile_imp (List.mem_reverse.mp hc))]
    _ = tokenCountAux false s := by rw [← hdecomp]

/-- `_word_count` computes exactly the number of maximal non-whitespace
runs. -/
theorem pyWordCount_eq_tokenCount (s : List Char) :
    pyWordCountL s = tokenCount s := by
  unfold pyWordCountL pySplitWs tokenCount
  rw [List.filter_eq_self.mpr]
  · rw [pySplitAux_length]
    simp only [List.isEmpty_nil, if_true]
    unfold pyStrip pyLstrip
    rw [tokenCountAux_lstrip, tokenCountAux_rstrip]
  · intro a ha
    have := pySplitAux_ne_nil _ _ _ ha
    simpa [List.isEmpty_iff] using this

lemma ne_unknown_pad (l : List Char) :
    (if l.isEmpty then Lc "unknown" else l) ≠ [] := by
  split
  · decide
  · next h => simpa [List.isEmpty_iff] using h

lemma neSeg_ne_nil (s g : List Char) (h : neSeg s = some g) : g ≠ [] := by
  by_cases he : (s.takeWhile (fun c => c != '/')).isEmpty
  · simp [neSeg, he] at h
  · simp [neSeg, he] at h
    subst h
    simpa [List.isEmpty_iff] using he

lemma fbAfterScheme_ne_nil (r g : List Char) (h : fbAfterScheme r = some g) :
    g ≠ [] := by
  unfold fbAfterScheme at h
  by_cases h1 : lPre (Lc "://") r
  · rw [if_pos h1] at h
    by_cases h2 : lPre (Lc "www.") (r.drop 3)
    · rw [if_pos h2] at h
      cases hn : neSeg ((r.drop 3).drop 4) with
      | some g2 =>
          rw [hn] at h
          injection h with h
          subst h
          exact neSeg_ne_nil _ _ hn
      | none =>
          rw [hn] at h
          exact neSeg_ne_nil _ _ h
    · rw [if_neg h2] at h
      exact neSeg_ne_nil _ _ h
  · rw [if_neg h1] at h
    exact absurd h (by simp)

lemma fbMatchHere_ne_nil (s g : List Char) (h : fbMatchHere s = some g) :
    g ≠ [] := by
  unfold fbMatchHere at h
  by_cases h1 : lPre (Lc "http") s
  · rw [if_pos h1] at h
    exact fbAfterScheme_ne_nil _ _ h
  · rw [if_neg h1] at h
    exact absurd h (by simp)

/-- A host found by the except-branch regex is non-empty (`[^/]+` requires
at least one character). -/
lemma fbSearch_ne_nil : ∀ u g, fbSearch u = some g → g ≠ [] := by
  intro u
  induction u with
  | nil => intro g h; simp [fbSearch] at h
  | cons c t ih =>
      intro g h
      unfold fbSearch at h
      cases hm : fbMatchHere (c :: t) with
      | some g2 =>
          rw [hm] at h
          injection h with h
          subst h
          exact fbMatchHere_ne_nil _ _ hm
      | none =>
          rw [hm] at h
          exact ih g h

/-- The domain component of `_extract_domain_site` is never empty: the try
branch pads empty hosts with `"unknown"`, the except branch either returns
the non-empty regex host or `"unknown"`. -/
lemma extractDomainSite_fst_ne (u : List Char) : (extractDomainSite u).1 ≠ [] := by
  unfold extractDomainSite
  cases h : urlHostnameE u with
  | ok host0 => exact ne_unknown_pad _
  | error e =>
      cases hf : fbSearch u with
      | some host =>
          show host ≠ []
          exact fbSearch_ne_nil u host hf
      | none =>
          show Lc "unknown" ≠ []
          decide

/-- The prompt step of `runE` always succeeds and agrees with
`renderPrompt`. -/
lemma promptE (tmpl : String) (ps : List (String × PVal)) :
    (if tmpl.isEmpty then Except.ok "" else
      tryE (pyFormatMapE tmpl ps) (String.mk (fallbackReplace tmpl.data ps))) =
    (Except.ok (renderPrompt tmpl ps) : Except String String) := by
  by_cases ht : tmpl.isEmpty
  · simp [renderPrompt, ht]
  · cases hfm : pyFormatMap tmpl ps with
    | ok r => simp [renderPrompt, tryE, pyFormatMapE, ht, hfm]
    | error e => simp [renderPrompt, tryE, pyFormatMapE, ht, hfm]

/-! ## The claims -/

/-- C1: for every input, the `word_count` placeholder of the result equals
the number of maximal non-whitespace runs of the returned (post-truncation)
`content`, and the `word_count` output string is that integer
stringified. -/
theorem run_word_count_invariant (html url : String) (mc : Option Int) (ws : Bool)
    (tmpl now : String) :
    (run html url mc ws tmpl now).word_count =
      toString (tokenCount (run html url mc ws tmpl now).content.data) ∧
    List.lookup "word_count" (runPlaceholders html url mc ws now) =
      some (PVal.i (tokenCount (finalContent html mc ws))) := by
  constructor
  · show toString (pyWordCountL (finalContent html mc ws)) =
      toString (tokenCount (pyOrEmpty (String.mk (finalContent html mc ws))).data)
    rw [pyOrEmpty_eq, pyWordCount_eq_tokenCount]
  · show some (PVal.i (pyWordCountL (finalContent html mc ws))) =
      some (PVal.i (tokenCount (finalContent html mc ws)))
    rw [pyWordCount_eq_tokenCount]

/-- C2: for every input (including the `none` modelling of a `max_chars`
value that `int()` raises on, and URLs on which `urlparse` raises into the
domain splitter's except branch), the exception-explicit pipeline returns
`Except.ok` of the pure result — no error propagates out of `run` — and
the `domain` output is never empty (the non-empty regex host or the
`"unknown"` fallback).  The `site_name` output is not claimed non-empty:
the source's except branch returns the suffix-stripped site without
padding, which the claim's "degrades to an empty string or a documented
fallback" permits. -/
theorem run_total_wellformed (html url : String) (mc : Option Int) (ws : Bool)
    (tmpl now : String) :
    runE html url mc ws tmpl now = Except.ok (run html url mc ws tmpl now) ∧
    (run html url mc ws tmpl now).domain ≠ "" := by
  constructor
  · cases mc with
    | some n =>
        unfold runE
        rw [show tryE (pyIntE (some n)) 8000 = Except.ok n from rfl]
        dsimp only
        rw [promptE]
        dsimp only
        rfl
    | none =>
        unfold runE
        rw [show tryE (pyIntE none) 8000 = Except.ok 8000 from rfl]
        dsimp only
        rw [promptE]
        dsimp only
        rfl
  · show pyOrEmpty (String.mk (extractDomainSite (discoverUrl html.data url.data)).1) ≠ ""
    rw [pyOrEmpty_eq]
    have h := extractDomainSite_fst_ne (discoverUrl html.data url.data)
    intro hc
    apply h
    have := congrArg String.data hc
    simpa using this

/-- C3 counterexample: with `max_chars = 0` (which is `≤ 0`) the content
IS truncated — to the clamped cap 100 plus `"..."`, 103 characters — and
with the out-of-range `max_chars = 50` the pipeline does not fall back to
the default 8000 (the content would then be the full 105 characters) but
clamps to 100. -/
theorem run_max_chars_cex :
    (renderedText cexHtml).length = 105 ∧
    (run cexHtml "" (some 0) false "" "T").content.length = 103 ∧
    (run cexHtml "" (some 0) false "" "T").content ≠ String.mk (renderedText cexHtml) ∧
    (run cexHtml "" (some 50) false "" "T").content.length = 103 := by
  decide

/-- C3 amended: a strictly negative `max_chars` disables truncation; a
non-negative value is clamped into `[100, 100000]` and used as the cap; a
non-numeric value (`none`) falls back to the default 8000. -/
theorem run_max_chars_policy (html url tmpl now : String) (ws : Bool) (n : Int) :
    (n < 0 → (run html url (some n) ws tmpl now).content = String.mk (renderedText html)) ∧
    (0 ≤ n → (run html url (some n) ws tmpl now).content =
      String.mk ((if ws then capWordsafe else capChars) (renderedText html)
        (some (max 100 (min n 100000))))) ∧
    (run html url none ws tmpl now).content =
      String.mk ((if ws then capWordsafe else capChars) (renderedText html) (some 8000)) := by
  refine ⟨?_, ?_, ?_⟩
  · intro h
    show pyOrEmpty (String.mk (finalContent html (some n) ws)) = _
    rw [pyOrEmpty_eq]
    unfold finalContent capStep
    simp [h]
  · intro h
    show pyOrEmpty (String.mk (finalContent html (some n) ws)) = _
    rw [pyOrEmpty_eq]
    unfold finalContent capStep
    simp [not_lt.mpr h]
  · show pyOrEmpty (String.mk (finalContent html none ws)) = _
    rw [pyOrEmpty_eq]
    unfold finalContent capStep
    norm_num

/-- C3 witness: a negative cap leaves the rendered text unchanged; cap 0
is clamped to 100. -/
theorem run_max_chars_policy_witness :
    (run "b c" "" (some (-1)) true "" "T").content = String.mk (renderedText "b c") ∧
    (run "b c" "" (some 0) true "" "T").content =
      String.mk ((if true then capWordsafe else capChars) (renderedText "b c")
        (some (max 100 (min 0 100000)))) :=
  ⟨(run_max_chars_policy "b c" "" "" "T" true (-1)).1 (by decide),
   (run_max_chars_policy "b c" "" "" "T" true 0).2.1 (by decide)⟩

/-- C4 counterexample: on `"abc d fghij"` with `n = 6` the code searches
for a space only among the first `n - 2 = 4` characters (finding index 3)
while the claim's rule (last whitespace at or before index `n - 1 = 5`,
kept when at or after `n / 2`) would cut at the space at index 5: the two
results differ. -/
theorem capWordsafe_claim_cex :
    capWordsafeS "abc d fghij" (some 6) = "abc …" ∧
    wordsafeClaimedS "abc d fghij" 6 = "abc d …" ∧
    ("abc …" : String) ≠ "abc d …" := by
  decide

lemma lastSpaceBelow_some (s : List Char) :
    ∀ e j, lastSpaceBelow s e = some j →
      j < e ∧ s.get? j = some ' ' ∧ ∀ i, j < i → i < e → s.get? i ≠ some ' ' := by
  intro e
  induction e with
  | zero => intro j h; simp [lastSpaceBelow] at h
  | succ e ih =>
      intro j h
      unfold lastSpaceBelow at h
      by_cases hc : (s.get? e == some ' ') = true
      · rw [if_pos hc] at h
        obtain rfl : e = j := by simpa using h
        refine ⟨Nat.lt_succ_self _, by simpa using hc, ?_⟩
        intro i hji hie
        omega
      · rw [if_neg hc] at h
        obtain ⟨hje, hget, hall⟩ := ih j h
        refine ⟨by omega, hget, ?_⟩
        intro i hji hie
        by_cases hie' : i < e
        · exact hall i hji hie'
        · have : i = e := by omega
          subst this
          simpa using hc

lemma lastSpaceBelow_none (s : List Char) :
    ∀ e, lastSpaceBelow s e = none → ∀ i, i < e → s.get? i ≠ some ' ' := by
  intro e
  induction e with
  | zero => intro h i hi; omega
  | succ e ih =>
      intro h i hi
      unfold lastSpaceBelow at h
      by_cases hc : (s.get? e == some ' ') = true
      · rw [if_pos hc] at h; exact absurd h (by simp)
      · rw [if_neg hc] at h
        by_cases hie : i < e
        · exact ih h i hie
        · have : i = e := by omega
          subst this
          simpa using hc

/-- C4 amended: for text longer than a positive cap `n`, word-safe
truncation looks for the last space character (`' '` only, not general
whitespace) strictly below index `n - 1`; if it exists at index `j` with
`2 * j ≥ n` the text is cut to `s[0:j]`, otherwise (no such space, or
`2 * j < n`) it is hard-cut to `s[0:n]`; in all cases the kept prefix is
right-trimmed and a space plus the ellipsis glyph is appended.  The last
conjunct characterizes the found index as the rightmost space strictly
below `n - 1`. -/
theorem capWordsafe_space_cut (s : List Char) (n : Int) (j : Nat)
    (hn : 0 < n) (hl : (n : Int) < s.length) :
    (lastSpaceBelow s (max 0 (n - 1)).toNat = some j →
       (n ≤ 2 * (j : Int) → capWordsafe s (some n) = pyRstrip (s.take j) ++ Lc " …") ∧
       (2 * (j : Int) < n → capWordsafe s (some n) = pyRstrip (s.take n.toNat) ++ Lc " …") ∧
       (j < (max 0 (n - 1)).toNat ∧ s.get? j = some ' ' ∧
         ∀ i, j < i → i < (max 0 (n - 1)).toNat → s.get? i ≠ some ' ')) ∧
    (lastSpaceBelow s (max 0 (n - 1)).toNat = none →
       capWordsafe s (some n) = pyRstrip (s.take n.toNat) ++ Lc " …") := by
  have hsne : s.isEmpty = false := by
    cases s with
    | nil => simp at hl; omega
    | cons a t => rfl
  have hc2 : ¬(¬((n : Int) ≠ 0 ∧ 0 < n) ∨ (s.length : Int) ≤ n) := by
    push_neg
    exact ⟨⟨by omega, hn⟩, by omega⟩
  constructor
  · intro h
    refine ⟨?_, ?_, ?_⟩
    · intro h2j
      unfold capWordsafe
      rw [hsne]
      simp only [Bool.false_eq_true, if_false, Option.getD_some]
      rw [if_neg hc2]
      simp only [h]
      have hb : (((j : Int) == (-1 : Int)) || decide (2 * (j : Int) < n)) = false := by
        simp only [Bool.or_eq_false_iff, beq_eq_false_iff_ne, ne_eq,
          decide_eq_false_iff_not, not_lt]
        exact ⟨by omega, h2j⟩
      simp only [hb, Bool.false_eq_true, if_false, Int.toNat_natCast]
    · intro h2j
      unfold capWordsafe
      rw [hsne]
      simp only [Bool.false_eq_true, if_false, Option.getD_some]
      rw [if_neg hc2]
      simp only [h]
      have hb : (((j : Int) == (-1 : Int)) || decide (2 * (j : Int) < n)) = true := by
        simp only [Bool.or_eq_true, decide_eq_true_eq]
        exact Or.inr h2j
      simp only [hb, if_true]
    · exact lastSpaceBelow_some s _ j h
  · intro h
    unfold capWordsafe
    rw [hsne]
    simp only [Bool.false_eq_true, if_false, Option.getD_some]
    rw [if_neg hc2]
    simp only [h]
    simp only [beq_self_eq_true, Bool.true_or, if_true]

/-- C4 witness: on `"ab cdefgh"` with cap 6 the only space below index 5
sits at index 2, before half of 6, so the text is hard-cut at 6. -/
theorem capWordsafe_space_cut_witness :
    capWordsafeS "ab cdefgh" (some 6) = "ab cde …" := by
  have h := ((capWordsafe_space_cut (Lc "ab cdefgh") 6 2 (by decide)
    (by decide)).1 (by decide)).2.1 (by decide)
  show String.mk (capWordsafe (Lc "ab cdefgh") (some 6)) = "ab cde …"
  rw [h]
  decide

/-- C8: for a positive cap `n`, exact-character truncation of a string
longer than `n` keeps the first `n` characters and appends `"..."`, giving
exactly `n + 3` characters; a string of length at most `n` is returned
unchanged. -/
theorem capChars_exact (s : String) (n : Int) (hn : 0 < n) :
    ((n : Int) < s.length → capCharsS s (some n) =
        String.mk (s.data.take n.toNat ++ Lc "...") ∧
      (capCharsS s (some n)).length = n.toNat + 3) ∧
    ((s.length : Int) ≤ n → capCharsS s (some n) = s) := by
  obtain ⟨d⟩ := s
  constructor
  · intro hgt
    have hdne : d.isEmpty = false := by
      cases d with
      | nil => simp at hgt; omega
      | cons a t => rfl
    have hcond : (n : Int) ≠ 0 ∧ 0 < n ∧ (n : Int) < d.length := by
      refine ⟨by omega, hn, ?_⟩
      simpa using hgt
    constructor
    · show String.mk (capChars d (some n)) = _
      unfold capChars
      rw [hdne]
      simp only [Bool.false_eq_true, if_false, Option.getD_some]
      rw [if_pos hcond]
    · show (String.mk (capChars d (some n))).length = n.toNat + 3
      unfold capChars
      rw [hdne]
      simp only [Bool.false_eq_true, if_false, Option.getD_some]
      rw [if_pos hcond]
      show (d.take n.toNat ++ Lc "...").length = n.toNat + 3
      rw [List.length_append, List.length_take]
      have : (n : Int) < d.length := hcond.2.2
      have hle : n.toNat ≤ d.length := by omega
      simp [Nat.min_eq_left hle, Lc]
  · intro hle
    show String.mk (capChars d (some n)) = String.mk d
    cases hd : d.isEmpty with
    | true =>
        unfold capChars
        rw [hd]
        simp only [if_true]
        congr
        exact (List.isEmpty_iff.mp hd).symm
    | false =>
        unfold capChars
        rw [hd]
        simp only [Bool.false_eq_true, if_false, Option.getD_some]
        rw [if_neg]
        intro hcond
        have : (n : Int) < d.length := hcond.2.2
        have : (d.length : Int) ≤ n := by simpa using hle
        omega

/-- C8 witness: `"abcdef"` capped at 3 gives `"abc..."` of length 6;
`"ab"` is unchanged. -/
theorem capChars_exact_witness :
    capCharsS "abcdef" (some 3) = String.mk ("abcdef".data.take (3 : Int).toNat ++ Lc "...") ∧
    (capCharsS "abcdef" (some 3)).length = (3 : Int).toNat + 3 ∧
    capCharsS "ab" (some 3) = "ab" :=
  ⟨((capChars_exact "abcdef" 3 (by decide)).1 (by decide)).1,
   ((capChars_exact "abcdef" 3 (by decide)).1 (by decide)).2,
   (capChars_exact "ab" 3 (by decide)).2 (by decide)⟩

/-- C5 (evaluating the code at the failing input): the text renderer
removes the opening `<li>` tag in its block-tag pass (step 2) before the
bullet substitution (step 3) can see it, so no bullet marker is ever
emitted — `<ul><li>item</li></ul>` renders to `"item"`, not
`"• item"`. -/
theorem li_bullet_dead :
    htmlToTextS "<ul><li>item</li></ul>" = "item" ∧
    htmlToTextS "<ul><li>item</li></ul>" ≠ "• item" := by
  decide

/-- C6 (evaluating the code at the failing input): for the keyword-classed
`<div>` candidate, `_pick_section` takes `m.group(1) or m.group(2)`, and
group 1 is the (never-empty) class keyword, so the selected payload is the
keyword `"content"` rather than the contents of the `<div>`. -/
theorem pick_section_keyword_bug :
    pickSectionS "<div class=\"content\">Hello world, plenty of article text here</div>"
      = "content" ∧
    pickSectionS "<div class=\"content\">Hello world, plenty of article text here</div>"
      ≠ "Hello world, plenty of article text here" := by
  decide

/-- C7: the ending list is sorted by descending length (stably, so
multi-label endings such as `.co.uk` come strictly before `.uk` and
`.com`), and splitting `https://www.example.co.uk/path` yields domain
`example.co.uk` and site name `example`. -/
theorem domain_split_co_uk :
    extractDomainSiteS "https://www.example.co.uk/path" = ("example.co.uk", "example") ∧
    List.Pairwise (fun a b => b.length ≤ a.length) extsSorted ∧
    List.indexOf (Lc ".co.uk") extsSorted < List.indexOf (Lc ".uk") extsSorted ∧
    List.indexOf (Lc ".co.uk") extsSorted < List.indexOf (Lc ".com") extsSorted ∧
    Lc ".co.uk" ∈ extsSorted ∧ Lc ".uk" ∈ extsSorted ∧ Lc ".com" ∈ extsSorted := by
  decide

/-- C9: the template renderer returns the empty string on an empty
template; for every title/author value the claim's example template
substitutes the known keys and echoes the unknown `{ghost}` back
verbatim; and whenever `format_map` fails the renderer returns the
literal-replacement fallback instead of raising. -/
theorem render_template_behavior (t a : String) :
    (∀ ps, renderPrompt "" ps = "") ∧
    renderPrompt "\x7btitle\x7d by \x7bauthor\x7d (\x7bghost\x7d)" (psExample t a) =
      t ++ " by " ++ a ++ " (\x7bghost\x7d)" ∧
    (∀ tmpl ps, pyFormatMap tmpl ps = Except.error () → tmpl ≠ "" →
      renderPrompt tmpl ps = String.mk (fallbackReplace tmpl.data ps)) := by
  refine ⟨fun ps => rfl, ?_, ?_⟩
  · obtain ⟨td⟩ := t
    obtain ⟨ad⟩ := a
    show String.mk (td ++ ([' ', 'b', 'y', ' '] ++ (ad ++
        [' ', '(', lbrace, 'g', 'h', 'o', 's', 't', rbrace, ')']))) =
      String.mk (((td ++ [' ', 'b', 'y', ' ']) ++ ad) ++
        [' ', '(', lbrace, 'g', 'h', 'o', 's', 't', rbrace, ')'])
    rw [List.append_assoc, List.append_assoc]
  · intro tmpl ps hfm hne
    simp [renderPrompt, hfm, String.isEmpty_iff, hne]

/-- C9 witness: the malformed template of a lone opening brace makes
`format_map` fail, and the fallback leaves it untouched (no token
matches), so the renderer returns it verbatim instead of raising. -/
theorem render_template_behavior_witness :
    renderPrompt "\x7b" (psExample "X" "Y") = "\x7b" := by
  have h := (render_template_behavior "X" "Y").2.2 "\x7b" (psExample "X" "Y") rfl (by decide)
  rw [h]
  decide

/-- C10: when no `url` argument is passed and the markup yields no URL
hint, the `url` entry of the placeholder map is the literal `"unknown"`
(never the empty string), and the serialized record is exactly the dump of
that map. -/
theorem run_url_unknown (html : String) (mc : Option Int) (ws : Bool) (tmpl now : String)
    (h : discoverUrl html.data [] = []) :
    (runPlaceholders html "" mc ws now).head? = some ("url", PVal.s "unknown") ∧
    (run html "" mc ws tmpl now).json = jsonDumps (runPlaceholders html "" mc ws now) := by
  constructor
  · have h2 : discoverUrl html.data ("" : String).data = [] := h
    simp [runPlaceholders, h2]
  · rfl

/-- C10 witness: the one-character document `"x"` has no URL hints. -/
theorem run_url_unknown_witness :
    (runPlaceholders "x" "" none true "T").head? = some ("url", PVal.s "unknown") ∧
    (run "x" "" none true "" "T").json = jsonDumps (runPlaceholders "x" "" none true "T") :=
  run_url_unknown "x" none true "" "T" rfl

end HtmlParseSync
